import Mathlib

/-! Shallow embedding of the curvature-field core of the Geometry-System
repository: the CPU evaluator and orbit solver from src/utils/physics.ts,
the GPU evaluator embedded in the shader source of src/constants.tsx, and
the regime classifier from src/components/Controls.tsx.

JS numbers that the code guards with Number.isFinite are modelled as
Option ℝ: none stands for a non-finite value (NaN or an infinity) and
some r for the finite value r.  All arithmetic on finite values is real
arithmetic. -/

noncomputable section

open Real

/-- Vertical exaggeration constant, src/utils/physics.ts line 5. -/
def EXAGGERATION : ℝ := 2.0

/-- Width coefficient for planet gravity wells, src/utils/physics.ts line 6. -/
def GRAVITY_WELL_WIDTH : ℝ := 0.1

/-- Width coefficient for the sun gravity well, src/utils/physics.ts line 7. -/
def SUN_GRAVITY_WIDTH : ℝ := 0.05

/-- Denominator for grid scaling, src/utils/physics.ts line 8. -/
def UNIVERSE_SCALE : ℝ := 10.0

/-- Orbital parameters of a catalog body, src/utils/physics.ts lines 15-19. -/
structure Orbit where
  a : ℝ
  e : ℝ
  speed : ℝ

/-- Static catalog entry, src/utils/physics.ts lines 11-23.  The display-only
optional fields hasRing and atmosphere are carried verbatim. -/
structure PlanetData where
  name : String
  radius : ℝ
  color : String
  orbit : Orbit
  hasRing : Bool := false
  atmosphere : Option String := none
  mass : ℝ

/-- Static planet catalog, src/utils/physics.ts lines 26-33. -/
def PLANETS : List PlanetData := [
  { name := "Mercury", radius := 0.15, color := "#A5A5A5",
    orbit := ⟨3.0, 0.205, 1.5⟩, mass := 0.2 },
  { name := "Venus", radius := 0.25, color := "#E39C4E",
    orbit := ⟨4.5, 0.007, 1.2⟩, atmosphere := some "#ffcc99", mass := 0.4 },
  { name := "Earth", radius := 0.28, color := "#4F4CB0",
    orbit := ⟨6.5, 0.017, 1.0⟩, atmosphere := some "#4facfe", mass := 0.5 },
  { name := "Mars", radius := 0.22, color := "#C1440E",
    orbit := ⟨8.5, 0.094, 0.8⟩, mass := 0.3 },
  { name := "Jupiter", radius := 0.8, color := "#C99039",
    orbit := ⟨12.0, 0.049, 0.5⟩, mass := 1.2 },
  { name := "Saturn", radius := 0.7, color := "#EAD6B8",
    orbit := ⟨16.0, 0.056, 0.35⟩, hasRing := true, mass := 1.0 }]

/-- Orbit solver, src/utils/physics.ts lines 40-46.  The source returns a
THREE.Vector3 with components (x, y, 0); it is modelled as a real triple. -/
def getEllipsePos (angle a e : ℝ) : ℝ × ℝ × ℝ :=
  let b := a * Real.sqrt (1 - e * e)
  let c := a * e
  let x := a * Real.cos angle - c
  let y := b * Real.sin angle
  (x, y, 0)

/-- Result of getPlanetPositions: the two parallel arrays positions and
masses pushed by the forEach loop, src/utils/physics.ts lines 52-63. -/
structure MassSnapshot where
  positions : List (ℝ × ℝ)
  masses : List ℝ

/-- Body of getPlanetPositions generalized over the catalog it iterates;
the source loops over the fixed PLANETS catalog. -/
def getPlanetPositionsOf (planets : List PlanetData) (time : ℝ) : MassSnapshot where
  positions := planets.map fun p =>
    let pos := getEllipsePos (time * p.orbit.speed * 0.5) p.orbit.a p.orbit.e
    (pos.1, pos.2.1)
  masses := planets.map fun p => p.mass

/-- Mass-source snapshot, src/utils/physics.ts lines 52-63. -/
def getPlanetPositions (time : ℝ) : MassSnapshot :=
  getPlanetPositionsOf PLANETS time

/-- Physics-relevant part of SimulationState, src/types.ts lines 8-20.
omega and chaosSpeed may arrive non-finite, hence Option ℝ.  Display-only
fields (zoom, color theme, layer toggles) are omitted: getSurfaceZ never
reads them. -/
structure SimulationState where
  omega : Option ℝ
  chaosMode : Bool
  chaosSpeed : Option ℝ
  precision : ℝ
  enableGravity : Bool

/-- FLRW metric term of the CPU evaluator, src/utils/physics.ts lines 79-88,
as a function of the already substituted omega and the normalized
coordinates nx = x/UNIVERSE_SCALE, ny = y/UNIVERSE_SCALE. -/
def cpuMetric (omega nx ny : ℝ) : ℝ :=
  if omega > 1.02 then
    -(((omega - 1.0) * 2.0 * EXAGGERATION) * ((nx * nx + ny * ny) * 2.0))
  else if omega < 0.98 then
    ((1.0 - omega) * 2.0 * EXAGGERATION) * (nx * nx - ny * ny) * 2.0
  else 0

/-- Chaos term of the CPU evaluator, src/utils/physics.ts lines 96-100, as a
function of raw x, y and the already scaled time t = time * chaosSpeed.
The last layer uses length coefficient 0.3. -/
def cpuChaos (x y t : ℝ) : ℝ :=
  Real.sin (x * 0.5 + t) * Real.sin (y * 0.5 + t) * 0.5
    + Real.sin (x * 1.5 - t * 0.5) * 0.25
    + Real.cos (y * 1.5 + t * 0.5) * 0.25
    + Real.sin (Real.sqrt (x * x + y * y) * 0.3 - t * 2.0) * 0.1

/-- Magnitude m * exp(-dSq * k) subtracted for one gravity well,
src/utils/physics.ts lines 115 and 122. -/
def gravityWell (m k dSq : ℝ) : ℝ := m * Real.exp (-dSq * k)

/-- One iteration of the planet-well loop of the CPU evaluator,
src/utils/physics.ts lines 109-117: pm is the (position, mass) pair at the
current index of the snapshot arrays. -/
def cpuWellStep (precision x y : ℝ) (z : ℝ) (pm : (ℝ × ℝ) × ℝ) : ℝ :=
  let dx := x - pm.1.1
  let dy := y - pm.1.2
  let dSq := dx * dx + dy * dy
  let m := pm.2 * (0.5 + precision * 0.5)
  if m > 0 then z - gravityWell m GRAVITY_WELL_WIDTH dSq else z

/-- Gravity-well block of the CPU evaluator, src/utils/physics.ts lines
106-123, factored as its additive contribution: the loop subtracts amounts
that do not depend on the accumulator, and the sun well follows
unconditionally.  sunBase is the literal 1.5 of line 121. -/
def cpuGravity (snap : MassSnapshot) (precision sunBase x y : ℝ) : ℝ :=
  let wells := (snap.positions.zip snap.masses).foldl (cpuWellStep precision x y) 0
  let dSqSun := x * x + y * y
  let sunMass := sunBase * (0.5 + precision * 0.5)
  wells - gravityWell sunMass SUN_GRAVITY_WIDTH dSqSun

/-- CPU evaluator getSurfaceZ, src/utils/physics.ts lines 69-127,
generalized over the catalog it snapshots and the sun base mass literal.
The three additive blocks are the defs above; non-finite x or y
short-circuits to 0, omega and chaosSpeed fall back to 1.0.  Over real
arithmetic the final isNaN guard of line 125 can never fire: every branch
below yields a real number. -/
def getSurfaceZGen (planets : List PlanetData) (sunBase : ℝ)
    (x y : Option ℝ) (state : SimulationState) (time : ℝ) : ℝ :=
  match x, y with
  | some x, some y =>
    let nx := x / UNIVERSE_SCALE
    let ny := y / UNIVERSE_SCALE
    let omega := state.omega.getD 1.0
    let zMetric := cpuMetric omega nx ny
    let zChaos :=
      if state.chaosMode then
        cpuChaos x y (time * state.chaosSpeed.getD 1.0) * EXAGGERATION
      else 0
    let zGravity :=
      if state.enableGravity then
        cpuGravity (getPlanetPositionsOf planets time) state.precision sunBase x y
      else 0
    zMetric + zChaos + zGravity
  | _, _ => 0

/-- CPU evaluator exactly as shipped: fixed PLANETS catalog and sun base
mass 1.5, src/utils/physics.ts lines 69-127. -/
def getSurfaceZ (x y : Option ℝ) (state : SimulationState) (time : ℝ) : ℝ :=
  getSurfaceZGen PLANETS 1.5 x y state time

/-- Uniform inputs of the GPU evaluator, src/constants.tsx lines 7-16.  The
fixed-size vec2[6] and float[6] arrays are modelled as lists, instantiated
with length 6 by the scene code. -/
structure Uniforms where
  uTime : ℝ
  uOmega : ℝ
  uChaos : ℝ
  uChaosSpeed : ℝ
  uExaggeration : ℝ
  uGravPos : List (ℝ × ℝ)
  uGravMass : List ℝ
  uSunMass : ℝ

/-- GPU chaos helper getChaosZ, src/constants.tsx lines 19-26.  The last
layer uses length coefficient 3.0. -/
def getChaosZ (px py time : ℝ) : ℝ :=
  Real.sin (px * 0.5 + time) * Real.sin (py * 0.5 + time) * 0.5
    + Real.sin (px * 1.5 - time * 0.5) * 0.25
    + Real.cos (py * 1.5 + time * 0.5) * 0.25
    + Real.sin (Real.sqrt (px * px + py * py) * 3.0 - time * 2.0) * 0.1

/-- FLRW metric term of the GPU evaluator, src/constants.tsx lines 35-41,
over the centered coordinates cx = px/10, cy = py/10. -/
def gpuMetric (uOmega uExaggeration cx cy : ℝ) : ℝ :=
  if uOmega > 1.02 then
    -(((uOmega - 1.0) * 2.0 * uExaggeration) * ((cx * cx + cy * cy) * 2.0))
  else if uOmega < 0.98 then
    ((1.0 - uOmega) * 2.0 * uExaggeration) * (cx * cx - cy * cy) * 2.0
  else 0

/-- One iteration of the planet-well loop of the GPU evaluator,
src/constants.tsx lines 53-58: d is the GLSL distance call. -/
def gpuWellStep (px py : ℝ) (z : ℝ) (pm : (ℝ × ℝ) × ℝ) : ℝ :=
  if pm.2 > 0 then
    let d := Real.sqrt ((px - pm.1.1) * (px - pm.1.1) + (py - pm.1.2) * (py - pm.1.2))
    z - pm.2 * Real.exp (-(d * d) * 0.1)
  else z

/-- Gravity-well block of the GPU evaluator, src/constants.tsx lines 49-64,
factored as its additive contribution; unlike the CPU side the sun well is
guarded by uSunMass > 0. -/
def gpuGravity (uGravPos : List (ℝ × ℝ)) (uGravMass : List ℝ)
    (uSunMass px py : ℝ) : ℝ :=
  let wells := (uGravPos.zip uGravMass).foldl (gpuWellStep px py) 0
  let sun :=
    if uSunMass > 0 then
      let d := Real.sqrt (px * px + py * py)
      uSunMass * Real.exp (-(d * d) * 0.05)
    else 0
  wells - sun

/-- GPU evaluator getCurvature, src/constants.tsx lines 28-67. -/
def getCurvature (u : Uniforms) (px py : ℝ) : ℝ :=
  let cx := px / 10.0
  let cy := py / 10.0
  let zMetric := gpuMetric u.uOmega u.uExaggeration cx cy
  let zChaos :=
    if u.uChaos > 0.5 then getChaosZ px py (u.uTime * u.uChaosSpeed) * u.uExaggeration
    else 0
  let zGravity := gpuGravity u.uGravPos u.uGravMass u.uSunMass px py
  zMetric + zChaos + zGravity

/-- Discrete geometry regime, src/types.ts lines 2-6. -/
inductive UniverseType where
  | Open
  | Flat
  | Closed
deriving DecidableEq

/-- Regime classifier, src/components/Controls.tsx lines 69-73. -/
def getUniverseType (omega : ℝ) : UniverseType :=
  if omega > 1.02 then UniverseType.Closed
  else if omega < 0.98 then UniverseType.Open
  else UniverseType.Flat

/-- Angle-sum display string, src/components/Controls.tsx lines 75-79. -/
def getAngleSum (omega : ℝ) : String :=
  if omega > 1.02 then "> 180°"
  else if omega < 0.98 then "< 180°"
  else "= 180°"

/-- C5: the orbit solver returns exactly the focus-pinned parametric
ellipse (a cos θ − a e, a √(1−e²) sin θ), and in particular
position(0, a, 0) = (a, 0), position(π, a, 0) = (−a, 0), and with e = 0.5
and θ = 0 the x-coordinate is 0.5 a. -/
theorem getEllipsePos_parametric_form (angle a e : ℝ)
    (ha : 0 ≤ a) (he0 : 0 ≤ e) (he1 : e < 1) :
    getEllipsePos angle a e
      = (a * Real.cos angle - a * e, a * Real.sqrt (1 - e ^ 2) * Real.sin angle, 0)
    ∧ getEllipsePos 0 a 0 = (a, 0, 0)
    ∧ getEllipsePos Real.pi a 0 = (-a, 0, 0)
    ∧ (getEllipsePos 0 a 0.5).1 = 0.5 * a := by
  refine ⟨?_, ?_, ?_, ?_⟩
  · simp only [getEllipsePos, sq]
  · simp [getEllipsePos]
  · simp [getEllipsePos]
  · simp only [getEllipsePos, Real.cos_zero]
    norm_num
    ring

/-- C5 witness at angle 0, a = 2, e = 0. -/
theorem getEllipsePos_parametric_form_witness :
    (0 : ℝ) ≤ 2 ∧ getEllipsePos 0 2 0 = (2, 0, 0) :=
  ⟨by norm_num,
   (getEllipsePos_parametric_form 0 2 0 (by norm_num) le_rfl (by norm_num)).2.1⟩

/-- C3 counterexample: the snapshot has exactly one entry per catalog body
(6 entries) holding the raw base masses; no Sun entry is appended, so its
size is catalog-size, not catalog-size + 1. -/
theorem getPlanetPositions_no_sun_entry :
    (getPlanetPositions 0).positions.length = PLANETS.length
    ∧ (getPlanetPositions 0).masses = PLANETS.map (fun p => p.mass)
    ∧ PLANETS.length = 6
    ∧ (getPlanetPositions 0).positions.length ≠ PLANETS.length + 1 := by
  refine ⟨?_, rfl, rfl, ?_⟩
  · simp [getPlanetPositions, getPlanetPositionsOf]
  · simp [getPlanetPositions, getPlanetPositionsOf]

/-- C3 amended: for every time t the snapshot pairs each catalog body with
the ellipse position at angle t × speed × 0.5 and with its base (unscaled)
mass; both arrays have exactly catalog-size entries and the Sun is not
among them (it is a separate fixed source in the evaluators). -/
theorem getPlanetPositions_entries (planets : List PlanetData) (t : ℝ) :
    (getPlanetPositionsOf planets t).positions
      = planets.map (fun p =>
          ((getEllipsePos (t * p.orbit.speed * 0.5) p.orbit.a p.orbit.e).1,
           (getEllipsePos (t * p.orbit.speed * 0.5) p.orbit.a p.orbit.e).2.1))
    ∧ (getPlanetPositionsOf planets t).masses = planets.map (fun p => p.mass)
    ∧ (getPlanetPositionsOf planets t).positions.length = planets.length
    ∧ (getPlanetPositionsOf planets t).masses.length = planets.length := by
  refine ⟨rfl, rfl, ?_, ?_⟩ <;> simp [getPlanetPositionsOf]

/-- Helper: inside the dead band neither metric branch fires. -/
lemma cpuMetric_flat {omega : ℝ} (h1 : ¬omega > 1.02) (h2 : ¬omega < 0.98)
    (nx ny : ℝ) : cpuMetric omega nx ny = 0 := by
  unfold cpuMetric
  rw [if_neg h1, if_neg h2]

/-- C2: for omega anywhere in the closed band [0.98, 1.02] the metric term
is exactly 0 and the returned height agrees with the canonical flat value;
the Closed branch fires only above 1.02, the Open branch only below 0.98,
and the two branch conditions are mutually exclusive. -/
theorem flat_band_metric_zero (omega : ℝ) :
    (0.98 ≤ omega → omega ≤ 1.02 →
      (∀ nx ny : ℝ, cpuMetric omega nx ny = 0)
      ∧ ∀ (planets : List PlanetData) (sunBase x y time : ℝ) (st : SimulationState),
          getSurfaceZGen planets sunBase (some x) (some y)
              { st with omega := some omega } time
            = getSurfaceZGen planets sunBase (some x) (some y)
              { st with omega := some 1 } time)
    ∧ (1.02 < omega → ∀ nx ny : ℝ,
        cpuMetric omega nx ny
          = -(((omega - 1.0) * 2.0 * EXAGGERATION) * ((nx * nx + ny * ny) * 2.0)))
    ∧ (omega < 0.98 → ∀ nx ny : ℝ,
        cpuMetric omega nx ny
          = ((1.0 - omega) * 2.0 * EXAGGERATION) * (nx * nx - ny * ny) * 2.0)
    ∧ ¬(1.02 < omega ∧ omega < 0.98) := by
  refine ⟨fun hlo hhi => ⟨fun nx ny => ?_, fun planets sunBase x y time st => ?_⟩,
    fun h nx ny => ?_, fun h nx ny => ?_, fun h => ?_⟩
  · exact cpuMetric_flat (by linarith) (by linarith) nx ny
  · simp only [getSurfaceZGen, Option.getD_some]
    rw [cpuMetric_flat (show ¬omega > 1.02 by linarith) (show ¬omega < 0.98 by linarith),
      cpuMetric_flat (show ¬(1 : ℝ) > 1.02 by norm_num) (show ¬(1 : ℝ) < 0.98 by norm_num)]
  · unfold cpuMetric
    rw [if_pos h]
  · unfold cpuMetric
    rw [if_neg (by linarith), if_pos h]
  · linarith [h.1, h.2]

/-- C2 witness: both endpoints 0.98 and 1.02 of the band give metric 0. -/
theorem flat_band_metric_zero_witness :
    (0.98 : ℝ) ≤ 1.02 ∧ cpuMetric 1.02 1 0 = 0 ∧ cpuMetric 0.98 1 0 = 0 :=
  ⟨by norm_num,
   ((flat_band_metric_zero 1.02).1 (by norm_num) (by norm_num)).1 1 0,
   ((flat_band_metric_zero 0.98).1 (by norm_num) (by norm_num)).1 1 0⟩

/-- Helper: the negated well contribution grows with squared distance. -/
lemma neg_gravityWell_mono {m k : ℝ} (hm : 0 < m) (hk : 0 < k)
    {s1 s2 : ℝ} (h : s1 ≤ s2) :
    -gravityWell m k s1 ≤ -gravityWell m k s2 := by
  unfold gravityWell
  have he : Real.exp (-s2 * k) ≤ Real.exp (-s1 * k) :=
    Real.exp_le_exp.mpr (by nlinarith)
  nlinarith [he, hm.le]

/-- C8: a lone well contribution −m·exp(−d²·k) with m > 0, k > 0 is
maximally negative at distance 0, strictly negative at every distance, and
monotonically increases toward 0 with distance. -/
theorem lone_gravity_well_monotone (m k d1 d2 : ℝ)
    (hm : 0 < m) (hk : 0 < k) (hd1 : 0 ≤ d1) (hlt : d1 < d2) :
    (∀ d : ℝ, -gravityWell m k (0 * 0) ≤ -gravityWell m k (d * d))
    ∧ (∀ d : ℝ, -gravityWell m k (d * d) < 0)
    ∧ -gravityWell m k (d1 * d1) ≤ -gravityWell m k (d2 * d2)
    ∧ -gravityWell m k (d2 * d2) < 0 := by
  have hneg : ∀ d : ℝ, -gravityWell m k (d * d) < 0 := by
    intro d
    have : 0 < gravityWell m k (d * d) := mul_pos hm (Real.exp_pos _)
    linarith
  refine ⟨fun d => ?_, hneg, ?_, hneg d2⟩
  · exact neg_gravityWell_mono hm hk (by nlinarith [mul_self_nonneg d])
  · exact neg_gravityWell_mono hm hk (mul_self_le_mul_self hd1 hlt.le)

/-- C8 witness at m = 1, k = 1, d1 = 0, d2 = 1. -/
theorem lone_gravity_well_monotone_witness :
    (0 : ℝ) < 1
    ∧ -gravityWell 1 1 (0 * 0) ≤ -gravityWell 1 1 (1 * 1)
    ∧ -gravityWell 1 1 (1 * 1) < 0 :=
  ⟨by norm_num,
   (lone_gravity_well_monotone 1 1 0 1 (by norm_num) (by norm_num) le_rfl
     (by norm_num)).2.2.1,
   (lone_gravity_well_monotone 1 1 0 1 (by norm_num) (by norm_num) le_rfl
     (by norm_num)).2.2.2⟩

/-- C9: the classifier splits on exactly the thresholds 1.02 and 0.98 of
the metric term, the angle-sum string follows the same three-way split,
and Flat is returned exactly when the metric term of getSurfaceZ vanishes
at every query point. -/
theorem getUniverseType_thresholds (omega : ℝ) :
    (getUniverseType omega = UniverseType.Closed ↔ 1.02 < omega)
    ∧ (getUniverseType omega = UniverseType.Open ↔ omega < 0.98)
    ∧ (getUniverseType omega = UniverseType.Flat ↔ 0.98 ≤ omega ∧ omega ≤ 1.02)
    ∧ (getAngleSum omega = "> 180°" ↔ 1.02 < omega)
    ∧ (getAngleSum omega = "< 180°" ↔ omega < 0.98)
    ∧ (getAngleSum omega = "= 180°" ↔ 0.98 ≤ omega ∧ omega ≤ 1.02)
    ∧ (getUniverseType omega = UniverseType.Flat
        ↔ ∀ x y : ℝ, cpuMetric omega (x / UNIVERSE_SCALE) (y / UNIVERSE_SCALE) = 0) := by
  have hclosed : 1.02 < omega →
      ¬∀ x y : ℝ, cpuMetric omega (x / UNIVERSE_SCALE) (y / UNIVERSE_SCALE) = 0 := by
    intro h hall
    have h10 := hall 10 0
    rw [show (10 : ℝ) / UNIVERSE_SCALE = 1 by norm_num [UNIVERSE_SCALE],
      show (0 : ℝ) / UNIVERSE_SCALE = 0 by norm_num [UNIVERSE_SCALE]] at h10
    unfold cpuMetric at h10
    rw [if_pos h] at h10
    simp only [EXAGGERATION] at h10
    nlinarith [h10]
  have hopen : omega < 0.98 →
      ¬∀ x y : ℝ, cpuMetric omega (x / UNIVERSE_SCALE) (y / UNIVERSE_SCALE) = 0 := by
    intro h hall
    have h10 := hall 10 0
    rw [show (10 : ℝ) / UNIVERSE_SCALE = 1 by norm_num [UNIVERSE_SCALE],
      show (0 : ℝ) / UNIVERSE_SCALE = 0 by norm_num [UNIVERSE_SCALE]] at h10
    unfold cpuMetric at h10
    rw [if_neg (by linarith), if_pos h] at h10
    simp only [EXAGGERATION] at h10
    nlinarith [h10]
  unfold getUniverseType getAngleSum
  by_cases h1 : omega > 1.02
  · rw [if_pos h1, if_pos h1]
    exact ⟨iff_of_true rfl h1,
      iff_of_false (by decide) (by linarith),
      iff_of_false (by decide) (fun hx => by linarith [hx.2]),
      iff_of_true rfl h1,
      iff_of_false (by decide) (by linarith),
      iff_of_false (by decide) (fun hx => by linarith [hx.2]),
      iff_of_false (by decide) (hclosed h1)⟩
  · by_cases h2 : omega < 0.98
    · rw [if_neg h1, if_neg h1, if_pos h2, if_pos h2]
      exact ⟨iff_of_false (by decide) (by linarith),
        iff_of_true rfl h2,
        iff_of_false (by decide) (fun hx => by linarith [hx.1]),
        iff_of_false (by decide) (by linarith),
        iff_of_true rfl h2,
        iff_of_false (by decide) (fun hx => by linarith [hx.1]),
        iff_of_false (by decide) (hopen h2)⟩
    · rw [if_neg h1, if_neg h1, if_neg h2, if_neg h2]
      exact ⟨iff_of_false (by decide) h1,
        iff_of_false (by decide) h2,
        iff_of_true rfl ⟨by linarith, by linarith⟩,
        iff_of_false (by decide) h1,
        iff_of_false (by decide) h2,
        iff_of_true rfl ⟨by linarith, by linarith⟩,
        iff_of_true rfl fun x y => cpuMetric_flat h1 h2 _ _⟩

/-- C9 witness at omega = 1. -/
theorem getUniverseType_thresholds_witness :
    getUniverseType 1 = UniverseType.Flat ∧ (0.98 : ℝ) ≤ 1 ∧ (1 : ℝ) ≤ 1.02 :=
  ⟨(getUniverseType_thresholds 1).2.2.1.mpr ⟨by norm_num, by norm_num⟩,
   by norm_num, by norm_num⟩

/-- Helper: one CPU well iteration never increases the accumulator. -/
lemma cpuWellStep_le (p x y a : ℝ) (pm : (ℝ × ℝ) × ℝ) :
    cpuWellStep p x y a pm ≤ a := by
  simp only [cpuWellStep, gravityWell]
  split_ifs with h
  · have : 0 < pm.2 * (0.5 + p * 0.5) * Real.exp
        (-((x - pm.1.1) * (x - pm.1.1) + (y - pm.1.2) * (y - pm.1.2))
          * GRAVITY_WELL_WIDTH) :=
      mul_pos h (Real.exp_pos _)
    linarith
  · exact le_rfl

/-- Helper: the whole CPU planet-well loop never increases the accumulator. -/
lemma foldl_cpuWellStep_le (p x y : ℝ) :
    ∀ (L : List ((ℝ × ℝ) × ℝ)) (a : ℝ), L.foldl (cpuWellStep p x y) a ≤ a := by
  intro L
  induction L with
  | nil => intro a; simp
  | cons pm L ih =>
    intro a
    calc (pm :: L).foldl (cpuWellStep p x y) a
        = L.foldl (cpuWellStep p x y) (cpuWellStep p x y a pm) := by
          rw [List.foldl_cons]
      _ ≤ cpuWellStep p x y a pm := ih _
      _ ≤ a := cpuWellStep_le p x y a pm

/-- Helper: the CPU gravity block only ever lowers the surface when the
scaled sun mass is nonnegative. -/
lemma cpuGravity_nonpos (snap : MassSnapshot) (p sunBase x y : ℝ)
    (hsun : 0 ≤ sunBase * (0.5 + p * 0.5)) :
    cpuGravity snap p sunBase x y ≤ 0 := by
  simp only [cpuGravity, gravityWell]
  have h1 := foldl_cpuWellStep_le p x y (snap.positions.zip snap.masses) 0
  have h2 : 0 ≤ sunBase * (0.5 + p * 0.5)
      * Real.exp (-(x * x + y * y) * SUN_GRAVITY_WIDTH) :=
    mul_nonneg hsun (Real.exp_pos _).le
  linarith

/-- C10: every catalog mass is positive and, with precision in [0, 1],
enabling gravity can only lower the returned height. -/
theorem enabling_gravity_never_raises (x y time : ℝ) (st : SimulationState)
    (hp0 : 0 ≤ st.precision) (hp1 : st.precision ≤ 1) :
    (∀ p ∈ PLANETS, (0 : ℝ) < p.mass)
    ∧ getSurfaceZ (some x) (some y) { st with enableGravity := true } time
        ≤ getSurfaceZ (some x) (some y) { st with enableGravity := false } time := by
  constructor
  · intro p hp
    fin_cases hp <;> norm_num
  · have hg : cpuGravity (getPlanetPositionsOf PLANETS time) st.precision 1.5 x y ≤ 0 :=
      cpuGravity_nonpos _ _ _ _ _ (by nlinarith)
    simp only [getSurfaceZ, getSurfaceZGen]
    simp only [Bool.false_eq_true, if_false, if_true]
    nlinarith [hg]

/-- C10 witness at the origin with precision 0.5. -/
theorem enabling_gravity_never_raises_witness :
    (0 : ℝ) ≤ 0.5
    ∧ getSurfaceZ (some 0) (some 0) ⟨some 1, false, some 1, 0.5, true⟩ 0
        ≤ getSurfaceZ (some 0) (some 0) ⟨some 1, false, some 1, 0.5, false⟩ 0 :=
  ⟨by norm_num,
   (enabling_gravity_never_raises 0 0 0 ⟨some 1, false, some 1, 0.5, false⟩
     (by norm_num) (by norm_num)).2⟩

/-- Helper: one CPU well iteration coincides with one GPU well iteration
once the GPU receives the pre-scaled mass. -/
lemma cpuWellStep_eq_gpuWellStep (p x y a : ℝ) (q : ℝ × ℝ) (m : ℝ) :
    cpuWellStep p x y a (q, m) = gpuWellStep x y a (q, m * (0.5 + p * 0.5)) := by
  simp only [cpuWellStep, gpuWellStep, gravityWell, GRAVITY_WELL_WIDTH]
  rw [Real.mul_self_sqrt (add_nonneg (mul_self_nonneg _) (mul_self_nonneg _))]

/-- Helper: the CPU planet-well loop over raw masses equals the GPU loop
over the scaled masses delivered through the uniforms. -/
lemma foldl_cpu_eq_gpu (p x y : ℝ) :
    ∀ (ps : List (ℝ × ℝ)) (ms : List ℝ) (a : ℝ),
      (ps.zip ms).foldl (cpuWellStep p x y) a
        = (ps.zip (ms.map fun m => m * (0.5 + p * 0.5))).foldl (gpuWellStep x y) a := by
  intro ps
  induction ps with
  | nil => intro ms a; simp
  | cons q ps ih =>
    intro ms a
    cases ms with
    | nil => simp
    | cons m ms =>
      simp only [List.map_cons, List.zip_cons_cons, List.foldl_cons]
      rw [cpuWellStep_eq_gpuWellStep]
      exact ih ms _

/-- C6: the planet-well width 0.1 and sun-well width 0.05 are the same on
both evaluators, and for identical positions and masses (the GPU reading
the scaled masses the scene code uploads) the two gravity-well sums agree
whenever the scaled sun mass is nonnegative. -/
theorem gravity_well_widths_match :
    GRAVITY_WELL_WIDTH = 0.1 ∧ SUN_GRAVITY_WIDTH = 0.05
    ∧ ∀ (positions : List (ℝ × ℝ)) (masses : List ℝ) (precision sunBase x y : ℝ),
        0 ≤ sunBase * (0.5 + precision * 0.5) →
        cpuGravity ⟨positions, masses⟩ precision sunBase x y
          = gpuGravity positions (masses.map fun m => m * (0.5 + precision * 0.5))
              (sunBase * (0.5 + precision * 0.5)) x y := by
  refine ⟨rfl, rfl, fun positions masses precision sunBase x y hsun => ?_⟩
  simp only [cpuGravity, gpuGravity]
  rw [foldl_cpu_eq_gpu]
  congr 1
  rcases lt_or_eq_of_le hsun with hpos | hzero
  · rw [if_pos hpos]
    simp only [gravityWell, SUN_GRAVITY_WIDTH]
    rw [Real.mul_self_sqrt (add_nonneg (mul_self_nonneg _) (mul_self_nonneg _))]
  · rw [if_neg (by rw [← hzero]; exact lt_irrefl 0), ← hzero]
    simp [gravityWell]

/-- C6 witness with one planet at (1, 2) of mass 3, precision 0.5. -/
theorem gravity_well_widths_match_witness :
    (0 : ℝ) ≤ 1.5 * (0.5 + 0.5 * 0.5)
    ∧ cpuGravity ⟨[(1, 2)], [3]⟩ 0.5 1.5 0 0
        = gpuGravity [(1, 2)] ([3].map fun m => m * (0.5 + 0.5 * 0.5))
            (1.5 * (0.5 + 0.5 * 0.5)) 0 0 :=
  ⟨by norm_num,
   gravity_well_widths_match.2.2 [(1, 2)] [3] 0.5 1.5 0 0 (by norm_num)⟩

/-- Helper: a CPU well loop whose mass entries are all zero is the
identity on the accumulator. -/
lemma foldl_cpuWellStep_zero (p x y : ℝ) :
    ∀ L : List ((ℝ × ℝ) × ℝ), (∀ pm ∈ L, pm.2 = 0) →
      ∀ a : ℝ, L.foldl (cpuWellStep p x y) a = a := by
  intro L
  induction L with
  | nil => intro _ a; rfl
  | cons pm L ih =>
    intro h a
    rw [List.foldl_cons]
    have h0 : pm.2 = 0 := h pm (List.mem_cons_self _ _)
    have hstep : cpuWellStep p x y a pm = a := by
      simp only [cpuWellStep, h0]
      rw [if_neg (by norm_num)]
    rw [hstep]
    exact ih (fun q hq => h q (List.mem_cons_of_mem _ hq)) a

/-- Helper: a GPU well loop whose mass entries are all zero is the
identity on the accumulator. -/
lemma foldl_gpuWellStep_zero (x y : ℝ) :
    ∀ L : List ((ℝ × ℝ) × ℝ), (∀ pm ∈ L, pm.2 = 0) →
      ∀ a : ℝ, L.foldl (gpuWellStep x y) a = a := by
  intro L
  induction L with
  | nil => intro _ a; rfl
  | cons pm L ih =>
    intro h a
    rw [List.foldl_cons]
    have h0 : pm.2 = 0 := h pm (List.mem_cons_self _ _)
    have hstep : gpuWellStep x y a pm = a := by
      simp only [gpuWellStep, h0]
      rw [if_neg (lt_irrefl 0)]
    rw [hstep]
    exact ih (fun q hq => h q (List.mem_cons_of_mem _ hq)) a

/-- C7: disabling gravity gives exactly the output of enabling it with
every mass source set to mass 0, on the CPU evaluator (zero-mass catalog
and zero sun base mass) and on the GPU evaluator (the zeroed uniform
arrays the scene code uploads versus no wells at all). -/
theorem gravity_toggle_equals_zero_mass :
    (∀ (planets : List PlanetData) (sunBase x y time : ℝ) (st : SimulationState),
      getSurfaceZGen planets sunBase (some x) (some y)
          { st with enableGravity := false } time
        = getSurfaceZGen (planets.map fun p => { p with mass := 0 }) 0
            (some x) (some y) { st with enableGravity := true } time)
    ∧ ∀ (uTime uOmega uChaos uChaosSpeed uExaggeration : ℝ)
        (ps : List (ℝ × ℝ)) (px py : ℝ),
        getCurvature ⟨uTime, uOmega, uChaos, uChaosSpeed, uExaggeration,
            ps, List.replicate ps.length 0, 0⟩ px py
          = getCurvature ⟨uTime, uOmega, uChaos, uChaosSpeed, uExaggeration,
              [], [], 0⟩ px py := by
  constructor
  · intro planets sunBase x y time st
    have hz : cpuGravity
        (getPlanetPositionsOf (planets.map fun p => { p with mass := 0 }) time)
        st.precision 0 x y = 0 := by
      have hmem : ∀ pm ∈ (getPlanetPositionsOf
            (planets.map fun p => { p with mass := 0 }) time).positions.zip
          (getPlanetPositionsOf
            (planets.map fun p => { p with mass := 0 }) time).masses,
          pm.2 = 0 := by
        intro pm hpm
        have hmass := (List.of_mem_zip hpm).2
        simp only [getPlanetPositionsOf, List.map_map] at hmass
        rcases List.mem_map.mp hmass with ⟨q, _, hq0⟩
        exact hq0.symm
      simp only [cpuGravity]
      rw [foldl_cpuWellStep_zero st.precision x y _ hmem 0]
      norm_num [gravityWell]
    simp only [getSurfaceZGen]
    simp only [Bool.false_eq_true, if_false, if_true, hz]
  · intro uTime uOmega uChaos uChaosSpeed uExaggeration ps px py
    have h1 : gpuGravity ps (List.replicate ps.length 0) 0 px py = 0 := by
      have hmem : ∀ pm ∈ ps.zip (List.replicate ps.length (0 : ℝ)), pm.2 = 0 :=
        fun pm hpm => List.eq_of_mem_replicate (List.of_mem_zip hpm).2
      simp only [gpuGravity]
      rw [foldl_gpuWellStep_zero px py _ hmem 0, if_neg (lt_irrefl 0)]
      norm_num
    have h2 : gpuGravity [] [] 0 px py = 0 := by
      simp only [gpuGravity, List.zip_nil_left, List.foldl_nil]
      rw [if_neg (lt_irrefl 0)]
      norm_num
    simp only [getCurvature]
    rw [h1, h2]

/-- C4: getSurfaceZ substitutes instead of propagating: a non-finite x or
y short-circuits to 0, a non-finite omega behaves as omega = 1 (so the
metric term with the substituted default is 0), and a non-finite
chaosSpeed behaves as chaosSpeed = 1.  Over the real-valued embedding the
remaining sum is a real number, so the final isNaN coercion of the source
can never change the result. -/
theorem defensive_substitution (x y t : ℝ) (st : SimulationState) :
    (∀ b : Option ℝ, getSurfaceZ none b st t = 0)
    ∧ (∀ a : Option ℝ, getSurfaceZ a none st t = 0)
    ∧ getSurfaceZ (some x) (some y) { st with omega := none } t
        = getSurfaceZ (some x) (some y) { st with omega := some 1 } t
    ∧ (∀ nx ny : ℝ, cpuMetric ((none : Option ℝ).getD 1.0) nx ny = 0)
    ∧ getSurfaceZ (some x) (some y) { st with chaosSpeed := none } t
        = getSurfaceZ (some x) (some y) { st with chaosSpeed := some 1 } t := by
  refine ⟨fun b => ?_, fun a => ?_, ?_, fun nx ny => ?_, ?_⟩
  · cases b <;> rfl
  · cases a <;> rfl
  · simp only [getSurfaceZ, getSurfaceZGen, Option.getD_none, Option.getD_some]
    norm_num
  · exact cpuMetric_flat (by norm_num) (by norm_num) nx ny
  · simp only [getSurfaceZ, getSurfaceZGen, Option.getD_none, Option.getD_some]
    norm_num

/-- C1: the two evaluators do not agree within 1e-4 on finite inputs with
chaos enabled, although the shader source says it is in sync with
getSurfaceZ: at x = 5π/3, y = 0, t = 0 (omega 1, chaos on with speed 1,
gravity uniforms zeroed) the CPU chaos layer sin(len·0.3 − 2t)·0.1 gives
height 1.2 while the GPU layer sin(len·3.0 − 2t)·0.1 gives height 1.0, a
gap of 0.2. -/
theorem chaos_constant_divergence :
    getSurfaceZ (some (5 * Real.pi / 3)) (some 0)
        ⟨some 1, true, some 1, 0.5, false⟩ 0
      - getCurvature ⟨0, 1, 1, 1, 2, List.replicate 6 (0, 0), List.replicate 6 0, 0⟩
          (5 * Real.pi / 3) 0
      = 0.2
    ∧ (0.0001 : ℝ) < 0.2 := by
  have hpi : (0 : ℝ) ≤ 5 * Real.pi / 3 := by positivity
  have hchaos : cpuChaos (5 * Real.pi / 3) 0 0 = 0.6 := by
    unfold cpuChaos
    rw [show (0 : ℝ) * 0.5 + 0 = 0 by norm_num, Real.sin_zero]
    rw [show (5 * Real.pi / 3) * 1.5 - (0 : ℝ) * 0.5 = Real.pi / 2 + 2 * Real.pi by ring]
    rw [Real.sin_add_two_pi, Real.sin_pi_div_two]
    rw [show (0 : ℝ) * 1.5 + 0 * 0.5 = 0 by norm_num, Real.cos_zero]
    rw [show (5 * Real.pi / 3) * (5 * Real.pi / 3) + (0 : ℝ) * 0
        = (5 * Real.pi / 3) * (5 * Real.pi / 3) by ring]
    rw [Real.sqrt_mul_self hpi]
    rw [show (5 * Real.pi / 3) * 0.3 - (0 : ℝ) * 2.0 = Real.pi / 2 by ring]
    rw [Real.sin_pi_div_two]
    norm_num
  have hgchaos : getChaosZ (5 * Real.pi / 3) 0 0 = 0.5 := by
    unfold getChaosZ
    rw [show (0 : ℝ) * 0.5 + 0 = 0 by norm_num, Real.sin_zero]
    rw [show (5 * Real.pi / 3) * 1.5 - (0 : ℝ) * 0.5 = Real.pi / 2 + 2 * Real.pi by ring]
    rw [Real.sin_add_two_pi, Real.sin_pi_div_two]
    rw [show (0 : ℝ) * 1.5 + 0 * 0.5 = 0 by norm_num, Real.cos_zero]
    rw [show (5 * Real.pi / 3) * (5 * Real.pi / 3) + (0 : ℝ) * 0
        = (5 * Real.pi / 3) * (5 * Real.pi / 3) by ring]
    rw [Real.sqrt_mul_self hpi]
    rw [show (5 * Real.pi / 3) * 3.0 - (0 : ℝ) * 2.0
        = Real.pi + 2 * Real.pi + 2 * Real.pi by ring]
    rw [Real.sin_add_two_pi, Real.sin_add_two_pi, Real.sin_pi]
    norm_num
  have hcpu : getSurfaceZ (some (5 * Real.pi / 3)) (some 0)
      ⟨some 1, true, some 1, 0.5, false⟩ 0 = 1.2 := by
    simp only [getSurfaceZ, getSurfaceZGen, Option.getD_some]
    rw [cpuMetric_flat (by norm_num) (by norm_num)]
    simp only [Bool.false_eq_true, if_false, if_true, zero_mul]
    rw [hchaos]
    norm_num [EXAGGERATION]
  have hggrav : gpuGravity (List.replicate 6 ((0 : ℝ), (0 : ℝ)))
      (List.replicate 6 (0 : ℝ)) 0 (5 * Real.pi / 3) 0 = 0 := by
    have hmem : ∀ pm ∈ (List.replicate 6 ((0 : ℝ), (0 : ℝ))).zip
        (List.replicate 6 (0 : ℝ)), pm.2 = 0 :=
      fun pm hpm => List.eq_of_mem_replicate (List.of_mem_zip hpm).2
    simp only [gpuGravity]
    rw [foldl_gpuWellStep_zero (5 * Real.pi / 3) 0 _ hmem 0, if_neg (lt_irrefl 0)]
    norm_num
  have hgpu : getCurvature ⟨0, 1, 1, 1, 2, List.replicate 6 (0, 0),
      List.replicate 6 0, 0⟩ (5 * Real.pi / 3) 0 = 1 := by
    simp only [getCurvature]
    have hm : gpuMetric 1 2 ((5 * Real.pi / 3) / 10.0) ((0 : ℝ) / 10.0) = 0 := by
      unfold gpuMetric
      rw [if_neg (by norm_num), if_neg (by norm_num)]
    rw [hm, if_pos (by norm_num : (1 : ℝ) > 0.5)]
    rw [show (0 : ℝ) * 1 = 0 by norm_num, hgchaos, hggrav]
    norm_num
  rw [hcpu, hgpu]
  norm_num

end
